import Mathlib

/-!
Verification development for the radio-network coordination layer of the
unmanned-vehicle tomography repository.

The Python sources are shallowly embedded: pure methods become Lean
functions, stateful methods become explicit state-passing functions, and
methods that can raise become functions into `Except`/`Option` or return an
error component.  Python values stored in packets are modelled by the
inductive type `PyObj`; numbers are modelled as integers (floating point is
out of scope).  The behavior of the external `json` library
(`json.dumps`/`json.loads`) is modelled by an executable renderer (`dumps`)
and an executable recursive-descent parser (`loads`) for the JSON fragment
the packets use: the parser turns JSON arrays into Python lists (never
tuples), exactly as `json.loads` does, which is the load-bearing fact for
the round-trip claims.  String escaping is modelled for the quote and
backslash escapes; the `json` module additionally escapes control and
non-ASCII characters, which does not affect round-trip behavior.
-/

namespace UVT

/-- Model of a Python value as stored in an `XBee_Packet` contents store or a
settings dictionary.  Numbers are modelled as integers; dictionaries are
modelled as association lists in insertion order. -/
inductive PyObj where
  | null : PyObj
  | bool (b : Bool) : PyObj
  | int (n : Int) : PyObj
  | str (s : String) : PyObj
  | tuple (items : List PyObj) : PyObj
  | list (items : List PyObj) : PyObj
  | dict (items : List (String × PyObj)) : PyObj

/-- Python errors that the embedded methods can raise. -/
inductive PyError where
  | valueError (msg : String) : PyError
  | typeError (msg : String) : PyError
  | keyError (msg : String) : PyError
  | indexError (msg : String) : PyError
  deriving DecidableEq

/-- Numeric value of a decimal digit character. -/
def charDigit (c : Char) : Nat := c.toNat - 48

/-- Little-endian decimal digit characters of a positive number, with
explicit fuel so that the definition is structural (any fuel at least the
number itself computes the digits). -/
def natCharsAux : Nat → Nat → List Char
  | 0, _ => []
  | _ + 1, 0 => []
  | fuel + 1, n + 1 => Nat.digitChar ((n + 1) % 10) :: natCharsAux fuel ((n + 1) / 10)

/-- Decimal rendering of a natural number, as `repr` of a Python int. -/
def natChars (n : Nat) : List Char :=
  if n = 0 then ['0'] else (natCharsAux n n).reverse

/-- Decimal rendering of an integer, as `repr` of a Python int. -/
def intChars : Int → List Char
  | .ofNat n => natChars n
  | .negSucc m => '-' :: natChars (m + 1)

/-- JSON string escaping of one character (quote and backslash escapes). -/
def escChar (c : Char) : List Char :=
  if c = '"' then ['\\', '"'] else if c = '\\' then ['\\', '\\'] else [c]

/-- JSON string escaping of a character sequence. -/
def escL : List Char → List Char
  | [] => []
  | c :: rest => escChar c ++ escL rest

mutual

/-- Model of `json.dumps` (default separators) producing the character
sequence of the wire encoding of one Python value.  Python tuples and lists
are both rendered as JSON arrays, exactly as the `json` module does. -/
def dumpsL : PyObj → List Char
  | .null => "null".data
  | .bool true => "true".data
  | .bool false => "false".data
  | .int n => intChars n
  | .str s => '"' :: (escL s.data ++ ['"'])
  | .tuple items => '[' :: dumpsFirst items
  | .list items => '[' :: dumpsFirst items
  | .dict kvs => '{' :: dumpsFirstPair kvs

/-- Rendering of the elements of a JSON array after the opening bracket. -/
def dumpsFirst : List PyObj → List Char
  | [] => [']']
  | v :: vs => dumpsL v ++ dumpsRest vs

/-- Rendering of the remaining elements of a JSON array, each preceded by
the default `json.dumps` separator. -/
def dumpsRest : List PyObj → List Char
  | [] => [']']
  | v :: vs => ',' :: ' ' :: (dumpsL v ++ dumpsRest vs)

/-- Rendering of one key/value member of a JSON object. -/
def dumpsPair : String × PyObj → List Char
  | (k, v) => '"' :: (escL k.data ++ '"' :: ':' :: ' ' :: dumpsL v)

/-- Rendering of the members of a JSON object after the opening brace. -/
def dumpsFirstPair : List (String × PyObj) → List Char
  | [] => ['}']
  | kv :: rest => dumpsPair kv ++ dumpsRestPairs rest

/-- Rendering of the remaining members of a JSON object. -/
def dumpsRestPairs : List (String × PyObj) → List Char
  | [] => ['}']
  | kv :: rest => ',' :: ' ' :: (dumpsPair kv ++ dumpsRestPairs rest)

end

/-- Model of `json.dumps` as a string-producing function. -/
def dumps (v : PyObj) : String := String.mk (dumpsL v)

/-- Whitespace characters skipped by the JSON parser. -/
def wsChar (c : Char) : Bool := c == ' ' || c == '\n' || c == '\t' || c == '\r'

/-- Skip leading whitespace. -/
def skipWs : List Char → List Char
  | [] => []
  | c :: rest => if wsChar c then skipWs rest else c :: rest

/-- Match an exact literal character sequence, returning the remainder. -/
def expectLit : List Char → List Char → Option (List Char)
  | [], cs => some cs
  | _ :: _, [] => none
  | l :: ls, c :: cs => if c = l then expectLit ls cs else none

/-- Parse the body of a JSON string after the opening quote, returning the
unescaped characters and the remainder after the closing quote. -/
def parseStringBody : List Char → Option (List Char × List Char)
  | [] => none
  | c :: rest =>
    if c = '"' then some ([], rest)
    else if c = '\\' then
      match rest with
      | [] => none
      | e :: rest2 =>
        if e = '"' ∨ e = '\\' then
          match parseStringBody rest2 with
          | some (ds, r) => some (e :: ds, r)
          | none => none
        else none
    else
      match parseStringBody rest with
      | some (ds, r) => some (c :: ds, r)
      | none => none

/-- Parse a nonempty run of decimal digits into a natural number. -/
def parseNat (cs : List Char) : Option (Nat × List Char) :=
  let ds := cs.takeWhile Char.isDigit
  if ds = [] then none
  else some (Nat.ofDigits 10 ((ds.map charDigit).reverse), cs.dropWhile Char.isDigit)

mutual

/-- Model of the `json.loads` grammar for one JSON value: recursive-descent
parser with explicit fuel (any fuel larger than the input length computes
the parse).  JSON arrays become Python lists — `json.loads` never produces
tuples — and JSON objects become dictionaries in member order. -/
def parseVal : Nat → List Char → Option (PyObj × List Char)
  | 0, _ => none
  | fuel + 1, cs =>
    match skipWs cs with
    | [] => none
    | c :: rest =>
      if c = 'n' then
        match expectLit ['u', 'l', 'l'] rest with
        | some r => some (.null, r)
        | none => none
      else if c = 't' then
        match expectLit ['r', 'u', 'e'] rest with
        | some r => some (.bool true, r)
        | none => none
      else if c = 'f' then
        match expectLit ['a', 'l', 's', 'e'] rest with
        | some r => some (.bool false, r)
        | none => none
      else if c = '"' then
        match parseStringBody rest with
        | some (ds, r) => some (.str (String.mk ds), r)
        | none => none
      else if c = '[' then
        match skipWs rest with
        | [] => none
        | c2 :: r2 =>
          if c2 = ']' then some (.list [], r2)
          else
            match parseVal fuel (c2 :: r2) with
            | none => none
            | some (v, r3) =>
              match parseItems fuel r3 with
              | none => none
              | some (vs, r4) => some (.list (v :: vs), r4)
      else if c = '{' then
        match skipWs rest with
        | [] => none
        | c2 :: r2 =>
          if c2 = '}' then some (.dict [], r2)
          else
            match parseMember fuel (c2 :: r2) with
            | none => none
            | some (kv, r3) =>
              match parseMembersTail fuel r3 with
              | none => none
              | some (kvs, r4) => some (.dict (kv :: kvs), r4)
      else if c = '-' then
        match parseNat rest with
        | some (n, r) => some (.int (-(n : Int)), r)
        | none => none
      else if c.isDigit then
        match parseNat (c :: rest) with
        | some (n, r) => some (.int (n : Int), r)
        | none => none
      else none

/-- Parse the continuation of a JSON array after one element: either the
closing bracket or a comma followed by further elements. -/
def parseItems : Nat → List Char → Option (List PyObj × List Char)
  | 0, _ => none
  | fuel + 1, cs =>
    match skipWs cs with
    | [] => none
    | c :: rest =>
      if c = ']' then some ([], rest)
      else if c = ',' then
        match parseVal fuel rest with
        | none => none
        | some (v, r) =>
          match parseItems fuel r with
          | none => none
          | some (vs, r2) => some (v :: vs, r2)
      else none

/-- Parse one key/value member of a JSON object. -/
def parseMember : Nat → List Char → Option ((String × PyObj) × List Char)
  | 0, _ => none
  | fuel + 1, cs =>
    match skipWs cs with
    | [] => none
    | c :: rest =>
      if c = '"' then
        match parseStringBody rest with
        | none => none
        | some (ks, r) =>
          match skipWs r with
          | [] => none
          | c2 :: r2 =>
            if c2 = ':' then
              match parseVal fuel r2 with
              | none => none
              | some (v, r3) => some ((String.mk ks, v), r3)
            else none
      else none

/-- Parse the continuation of a JSON object after one member: either the
closing brace or a comma followed by further members. -/
def parseMembersTail : Nat → List Char → Option (List (String × PyObj) × List Char)
  | 0, _ => none
  | fuel + 1, cs =>
    match skipWs cs with
    | [] => none
    | c :: rest =>
      if c = '}' then some ([], rest)
      else if c = ',' then
        match parseMember fuel rest with
        | none => none
        | some (kv, r) =>
          match parseMembersTail fuel r with
          | none => none
          | some (kvs, r2) => some (kv :: kvs, r2)
      else none

end

/-- Model of `json.loads`: parse one JSON value allowing trailing
whitespace; any other input is malformed and fails as a whole. -/
def loads (s : String) : Option PyObj :=
  match parseVal (s.data.length + 1) s.data with
  | some (v, rest) => if skipWs rest = [] then some v else none
  | none => none

mutual

/-- The value produced by a `dumps`/`loads` round trip: tuples collapse to
lists (JSON has only arrays), everything else is preserved. -/
def norm : PyObj → PyObj
  | .null => .null
  | .bool b => .bool b
  | .int n => .int n
  | .str s => .str s
  | .tuple items => .list (normItems items)
  | .list items => .list (normItems items)
  | .dict kvs => .dict (normPairs kvs)

/-- Round-trip image of a list of values. -/
def normItems : List PyObj → List PyObj
  | [] => []
  | v :: vs => norm v :: normItems vs

/-- Round-trip image of the members of a dictionary. -/
def normPairs : List (String × PyObj) → List (String × PyObj)
  | [] => []
  | kv :: rest => (kv.1, norm kv.2) :: normPairs rest

end

mutual

/-- A value contains no tuples anywhere. -/
def tupleFree : PyObj → Bool
  | .null => true
  | .bool _ => true
  | .int _ => true
  | .str _ => true
  | .tuple _ => false
  | .list items => tupleFreeItems items
  | .dict kvs => tupleFreePairs kvs

/-- No element of the list contains a tuple. -/
def tupleFreeItems : List PyObj → Bool
  | [] => true
  | v :: vs => tupleFree v && tupleFreeItems vs

/-- No member value of the dictionary contains a tuple. -/
def tupleFreePairs : List (String × PyObj) → Bool
  | [] => true
  | kv :: rest => tupleFree kv.2 && tupleFreePairs rest

end

/-! ## src/zigbee/XBee_Packet.py -/

/-- Embedding of `XBee_Packet`: a contents key-value store.  The store is a
Python dict; `unserialize` may replace it by any value `json.loads`
returns, so the field holds a `PyObj`. -/
structure XBee_Packet where
  _contents : PyObj

/-- `XBee_Packet.__init__`: the packet starts with an empty contents store. -/
def XBee_Packet.init : XBee_Packet := ⟨.dict []⟩

/-- `XBee_Packet.get_all`: all keys and values of the contents store. -/
def XBee_Packet.get_all (p : XBee_Packet) : PyObj := p._contents

/-- `XBee_Packet.serialize`: `json.dumps(self._contents)`. -/
def XBee_Packet.serialize (p : XBee_Packet) : String := dumps p._contents

/-- `XBee_Packet.unserialize`: `self._contents = json.loads(contents)`.  When
`json.loads` raises (malformed input) the assignment never executes, so the
packet keeps its previous contents; the error is returned alongside the
post-call packet. -/
def XBee_Packet.unserialize (p : XBee_Packet) (contents : String) :
    XBee_Packet × Option PyError :=
  match loads contents with
  | some c => (⟨c⟩, none)
  | none => (p, some (.valueError "No JSON object could be decoded"))

/-- The spec's `deserialize(bytes) -> Packet`: unserializing into a freshly
constructed packet. -/
def deserialize (b : String) : XBee_Packet × Option PyError :=
  XBee_Packet.init.unserialize b

/-! ## src/reconstruction/Buffer.py -/

/-- Embedding of `Buffer`: the FIFO queue plus the network metadata fields
set by `__init__`. -/
structure Buffer where
  _number_of_sensors : Nat
  _origin : Int × Int
  _size : Int × Int
  _queue : List XBee_Packet

/-- Argument passed to `Buffer.put`: either an `XBee_Packet` or a value of
any other runtime type (which `isinstance` rejects). -/
inductive BufferInput where
  | packet (p : XBee_Packet) : BufferInput
  | notAPacket (typeName : String) : BufferInput

/-- `Buffer.__init__`: raises when no options are provided, otherwise
initializes the metadata fields and an empty queue. -/
def Buffer.init (options : Option Unit) : Except PyError Buffer :=
  match options with
  | none => .error (.valueError "Options for the buffer have not been provided.")
  | some _ => .ok ⟨0, (0, 0), (0, 0), []⟩

/-- `Buffer.get`: the oldest packet, or `None` if the queue is empty. -/
def Buffer.get (b : Buffer) : Option XBee_Packet × Buffer :=
  match b._queue with
  | [] => (none, b)
  | p :: rest => (some p, { b with _queue := rest })

/-- `Buffer.put`: rejects values that are not `XBee_Packet`s with a
`ValueError`, and enqueues every `XBee_Packet` (there is no check on the
packet's specification). -/
def Buffer.put (b : Buffer) (arg : BufferInput) : Except PyError Buffer :=
  match arg with
  | .notAPacket _ => .error (.valueError "The provided packet is not an XBee packet.")
  | .packet p => .ok { b with _queue := b._queue ++ [p] }

/-- `Buffer.count`: the number of packets in the queue. -/
def Buffer.count (b : Buffer) : Nat := b._queue.length

/-- A sequence of `Buffer.put` calls with packet arguments. -/
def Buffer.putAll (b : Buffer) (ps : List XBee_Packet) : Except PyError Buffer :=
  match ps with
  | [] => .ok b
  | p :: rest =>
    match b.put (.packet p) with
    | .ok b2 => b2.putAll rest
    | .error e => .error e

/-- A sequence of `m` `Buffer.get` calls, collecting the returned values. -/
def Buffer.getMany (b : Buffer) (m : Nat) : List (Option XBee_Packet) × Buffer :=
  match m with
  | 0 => ([], b)
  | m + 1 =>
    let r := b.get
    let rs := r.2.getMany m
    (r.1 :: rs.1, rs.2)

/-! ## XBee_TDMA_Scheduler (spec-modelled)

The scheduler class `XBee_TDMA_Scheduler` is imported by
`src/xbee_sensor_simulator.py` and by `src/zigbee/XBee_Sensor_Physical.py`
but its module is not under `src/`; it is modelled from the spec. -/

/-- Modelled from the spec: the per-node TDMA schedule state of the missing
`zigbee.XBee_TDMA_Scheduler` module — `slot_duration`, `node_count` and the
previously computed `next_send_time` (spec section 3, Schedule State). -/
structure XBee_TDMA_Scheduler where
  id : Nat
  node_count : Nat
  slot_duration : ℚ
  next_send_time : ℚ

/-- Modelled from the spec: `next_timestamp()` reports the next time this
node is permitted to transmit (the locally committed `next_send_time`). -/
def XBee_TDMA_Scheduler.next_timestamp (s : XBee_TDMA_Scheduler) : ℚ :=
  s.next_send_time

/-- Modelled from the spec: the peer-anchored recomputation performed by
`synchronize` — the node's offset relative to the peer,
`((self_id - sender_id) mod node_count) * slot_duration`, added to the
peer's timestamp (spec section 4.2). -/
def XBee_TDMA_Scheduler.recomputed (s : XBee_TDMA_Scheduler)
    (received_timestamp : ℚ) (sender_id : Nat) : ℚ :=
  received_timestamp +
    ((((s.id : ℤ) - (sender_id : ℤ)) % (s.node_count : ℤ) : ℤ) : ℚ) * s.slot_duration

/-- Modelled from the spec: `synchronize(received_timestamp, sender_id)`
adopts the later of the recomputed peer-anchored value and the previously
computed `next_timestamp()` (spec section 4.2). -/
def XBee_TDMA_Scheduler.synchronize (s : XBee_TDMA_Scheduler)
    (received_timestamp : ℚ) (sender_id : Nat) : XBee_TDMA_Scheduler :=
  { s with next_send_time := max (s.recomputed received_timestamp sender_id) s.next_send_time }

/-- A whole sequence of `synchronize` calls, each carrying a received
timestamp and the sender id. -/
def XBee_TDMA_Scheduler.synchronizeAll (s : XBee_TDMA_Scheduler)
    (events : List (ℚ × Nat)) : XBee_TDMA_Scheduler :=
  events.foldl (fun st e => st.synchronize e.1 e.2) s

/-- Modelled from the spec: `get_next_timestamp()` computes the next future
boundary of a cycle of length `slot_duration * node_count`, offset by
`id * slot_duration`, relative to the current time (spec section 4.2). -/
def XBee_TDMA_Scheduler.get_next_timestamp (s : XBee_TDMA_Scheduler) (now : ℚ) : ℚ :=
  let cycle := s.slot_duration * (s.node_count : ℚ)
  let offset := (s.id : ℚ) * s.slot_duration
  offset + ((⌊(now - offset) / cycle⌋ : ℤ) + 1) * cycle

/-! ## src/zigbee/XBee_Sensor_Physical.py

Wall-clock reads (`time.time()`) and the random GPS location
(`_get_location`) are passed in as explicit arguments; frames given to the
radio library (`self._sensor.send`) are recorded as a list of emitted
actions.  The measurement payload built by `_send` is modelled structurally
(the source serializes it with `json.dumps` before handing it to the
radio). -/

/-- The measurement payload `_send` builds:
`{"from": location, "from_id": id, "timestamp": now}`. -/
structure MeasurementPacket where
  from_location : ℚ × ℚ
  from_id : Nat
  timestamp : ℚ
  deriving DecidableEq

/-- A sanitized received payload buffered in `self._data` by `_receive`:
the origin location, this node's location (`"to"`), and the RSSI value
(`None` until the `DB` response arrives). -/
structure SweepEntry where
  from_location : ℚ × ℚ
  to_location : ℚ × ℚ
  rssi : Option Nat
  deriving DecidableEq

/-- A frame handed to the ZigBee radio by the sensor. -/
inductive XBeeAction where
  | atCommand (command : String) : XBeeAction
  | txMeasurement (dest_addr_long : String) (packet : MeasurementPacket) : XBeeAction
  | txSweep (dest_addr_long : String) (entry : SweepEntry) : XBeeAction
  deriving DecidableEq

/-- Whether an action transmits data on the radio channel (a `tx` frame, as
opposed to a local `at` firmware query). -/
def XBeeAction.isTx : XBeeAction → Bool
  | .atCommand _ => false
  | .txMeasurement _ _ => true
  | .txSweep _ _ => true

/-- A frame delivered to `_receive` by the radio library: either a received
packet whose `rf_data` decodes to a measurement payload, or an `at_response`
carrying a command name and a parameter. -/
inductive XBeeFrame where
  | rx (payload : MeasurementPacket) : XBeeFrame
  | at_response (command : String) (parameter : String) : XBeeFrame
  deriving DecidableEq

/-- Python's `ord`: the code point of a one-character string. -/
def pyOrd (s : String) : Except PyError Nat :=
  match s.data with
  | [c] => .ok c.toNat
  | _ => .error (.typeError "ord() expected a character")

/-- Embedding of the `XBee_Sensor_Physical` state. -/
structure XBee_Sensor_Physical where
  id : Nat
  scheduler : XBee_TDMA_Scheduler
  settings_sensors : List String
  _serial_connection : Option String
  _sensor : Option Unit
  _address : Option String
  _next_timestamp : ℚ
  _data : List SweepEntry
  data : Option (List SweepEntry)

/-- `XBee_Sensor_Physical._send`: broadcast the measurement packet to every
other non-ground sensor, then send each buffered sweep-data entry to the
ground sensor (`sensors[0]`, an `IndexError` when the sensor list is empty),
and finally execute the clearing step `self.data = []` — which creates the
attribute `data` instead of touching `self._data`. -/
def XBee_Sensor_Physical._send (st : XBee_Sensor_Physical) (now : ℚ) (loc : ℚ × ℚ) :
    Except PyError (XBee_Sensor_Physical × List XBeeAction) :=
  let packet : MeasurementPacket := ⟨loc, st.id, now⟩
  let broadcasts := st.settings_sensors.enum.filter
    (fun ia => decide (st._address ≠ some ia.2 ∧ 0 < ia.1))
  let broadcastActions := broadcasts.map (fun ia => XBeeAction.txMeasurement ia.2 packet)
  match st.settings_sensors with
  | [] => .error (.indexError "list index out of range")
  | ground :: _ =>
    let sweepActions := st._data.map (fun e => XBeeAction.txSweep ground e)
    .ok ({ st with data := some [] }, broadcastActions ++ sweepActions)

/-- `XBee_Sensor_Physical.activate`: lazily initialize the serial connection
and the ZigBee object (issuing the `SH`/`SL` address queries), then send a
measurement round only when this node is not the ground station and the
current time has reached the next scheduled timestamp. -/
def XBee_Sensor_Physical.activate (st : XBee_Sensor_Physical) (now : ℚ) (loc : ℚ × ℚ) :
    Except PyError (XBee_Sensor_Physical × List XBeeAction) :=
  let init :=
    if st._serial_connection = none ∧ st._sensor = none then
      ({ st with
          _serial_connection := some (String.append "/dev/ttyUSB" (String.mk (intChars ((st.id : Int) - 1)))),
          _sensor := some () },
       [XBeeAction.atCommand "SH", XBeeAction.atCommand "SL"])
    else (st, ([] : List XBeeAction))
  if 0 < init.1.id ∧ init.1._next_timestamp ≤ now then
    match init.1._send now loc with
    | .error e => .error e
    | .ok (st2, sendActions) =>
      .ok ({ st2 with _next_timestamp := st2.scheduler.get_next_timestamp now },
           init.2 ++ sendActions)
  else .ok init

/-- `XBee_Sensor_Physical._receive`: for a non-ground node, an `rx` frame
synchronizes the scheduler, buffers the sanitized payload and requests the
RSSI value; an `at_response` frame updates the last buffered entry (`DB`) or
assembles the node address from the serial-number halves (`SH`/`SL`).  The
ground station only reads `packet["rf_data"]` and prints it. -/
def XBee_Sensor_Physical._receive (st : XBee_Sensor_Physical) (frame : XBeeFrame)
    (loc : ℚ × ℚ) : Except PyError (XBee_Sensor_Physical × List XBeeAction) :=
  if 0 < st.id then
    match frame with
    | .rx payload =>
      let sched := st.scheduler.synchronize payload.timestamp payload.from_id
      let entry : SweepEntry := ⟨payload.from_location, loc, none⟩
      .ok ({ st with
              scheduler := sched
              _next_timestamp := sched.next_timestamp
              _data := st._data ++ [entry] },
           [XBeeAction.atCommand "DB"])
    | .at_response command parameter =>
      if command = "DB" then
        match st._data.getLast? with
        | none => .error (.indexError "list index out of range")
        | some last =>
          match pyOrd parameter with
          | .error e => .error e
          | .ok v =>
            .ok ({ st with _data := st._data.dropLast ++ [{ last with rssi := some v }] }, [])
      else if command = "SH" then
        .ok ({ st with _address :=
                match st._address with
                | none => some parameter
                | some a => some (String.append parameter a) }, [])
      else if command = "SL" then
        .ok ({ st with _address :=
                match st._address with
                | none => some parameter
                | some a => some (String.append a parameter) }, [])
      else .ok (st, [])
  else
    match frame with
    | .rx _ => .ok (st, [])
    | .at_response _ _ => .error (.keyError "rf_data")

/-! ## src/environment/Environment.py -/

/-- A Python callback object as seen by `add_packet_action`: all that is
inspected is whether it has a `__call__` attribute; the tag distinguishes
callbacks. -/
structure PyCallback where
  callable : Bool
  tag : Nat
  deriving DecidableEq

/-- Embedding of the `Environment` state relevant to packet dispatch: the
specification-to-callback table, as an association list in registration
order. -/
structure Environment where
  _packet_callbacks : List (String × PyCallback)

/-- `Environment.add_packet_action`: a non-callable callback raises a
`TypeError`; a specification that already has a registered callback raises a
`KeyError` (the Python message quotes the action name); otherwise the
callback is registered. -/
def Environment.add_packet_action (env : Environment) (action : String)
    (callback : PyCallback) : Except PyError Environment :=
  if ¬ callback.callable then
    .error (.typeError "The provided callback is not callable.")
  else if (env._packet_callbacks.lookup action).isSome then
    .error (.keyError action)
  else
    .ok { env with _packet_callbacks := env._packet_callbacks ++ [(action, callback)] }

/-! ## src/control_panel/Control_Panel_Settings_View.py

The ground-station side effect writes the accumulated settings with
`json.dump(self._new_settings, json_file, indent=4, sort_keys=True)` to the
file opened as `open(self._controller.arguments.settings_file, 'w')`.  The
`sort_keys=True` rendering is modelled as a recursive key-sorting pass
(`sortAll`) followed by a pure `indent=4` renderer (`pdumpsL`). -/

/-- Sort dictionary members by key, as `sort_keys=True` does at one level. -/
def sortPairs (kvs : List (String × PyObj)) : List (String × PyObj) :=
  kvs.mergeSort (fun a b => decide (a.1 ≤ b.1))

mutual

/-- Recursively sort every dictionary of a value by key. -/
def sortAll : PyObj → PyObj
  | .null => .null
  | .bool b => .bool b
  | .int n => .int n
  | .str s => .str s
  | .tuple items => .tuple (sortAllItems items)
  | .list items => .list (sortAllItems items)
  | .dict kvs => .dict (sortPairs (sortAllPairs kvs))

/-- Recursively sort the dictionaries inside each element of a list. -/
def sortAllItems : List PyObj → List PyObj
  | [] => []
  | v :: vs => sortAll v :: sortAllItems vs

/-- Recursively sort the dictionaries inside each member value. -/
def sortAllPairs : List (String × PyObj) → List (String × PyObj)
  | [] => []
  | kv :: rest => (kv.1, sortAll kv.2) :: sortAllPairs rest

end

/-- The indentation prefix used by the `indent=4` renderer. -/
def indentChars (n : Nat) : List Char := List.replicate n ' '

mutual

/-- Model of the `json.dump(..., indent=4)` pretty renderer at a given
indentation level (the input's dictionaries are already key-sorted). -/
def pdumpsL : Nat → PyObj → List Char
  | _, .null => "null".data
  | _, .bool true => "true".data
  | _, .bool false => "false".data
  | _, .int n => intChars n
  | _, .str s => '"' :: (escL s.data ++ ['"'])
  | ind, .tuple items => pArr ind items
  | ind, .list items => pArr ind items
  | ind, .dict kvs => pObj ind kvs

/-- Pretty rendering of an array. -/
def pArr : Nat → List PyObj → List Char
  | _, [] => ['[', ']']
  | ind, v :: vs =>
    '[' :: '\n' :: (indentChars (ind + 4) ++ pdumpsL (ind + 4) v ++ pArrRest ind vs)

/-- Pretty rendering of the remaining array elements. -/
def pArrRest : Nat → List PyObj → List Char
  | ind, [] => '\n' :: (indentChars ind ++ [']'])
  | ind, v :: vs =>
    ',' :: '\n' :: (indentChars (ind + 4) ++ pdumpsL (ind + 4) v ++ pArrRest ind vs)

/-- Pretty rendering of one object member. -/
def pPair : Nat → String × PyObj → List Char
  | ind, (k, v) => '"' :: (escL k.data ++ '"' :: ':' :: ' ' :: pdumpsL ind v)

/-- Pretty rendering of an object. -/
def pObj : Nat → List (String × PyObj) → List Char
  | _, [] => ['{', '}']
  | ind, kv :: rest =>
    '{' :: '\n' :: (indentChars (ind + 4) ++ pPair (ind + 4) kv ++ pObjRest ind rest)

/-- Pretty rendering of the remaining object members. -/
def pObjRest : Nat → List (String × PyObj) → List Char
  | ind, [] => '\n' :: (indentChars ind ++ ['}'])
  | ind, kv :: rest =>
    ',' :: '\n' :: (indentChars (ind + 4) ++ pPair (ind + 4) kv ++ pObjRest ind rest)

end

/-- Model of `json.dump(obj, file, indent=4, sort_keys=True)`: the text
written for a value. -/
def dumpsPretty (v : PyObj) : String := String.mk (pdumpsL 0 (sortAll v))

/-- A file write performed through Python's `open(path, mode)` followed by a
single whole-content write. -/
structure SettingsFileWrite where
  path : String
  mode : String
  content : String
  deriving DecidableEq

/-- The contents of a file after a write action: mode `"w"` truncates the
file first, so the previous contents are wholesale-replaced. -/
def applyFileWrite (old : Option String) (w : SettingsFileWrite) : String :=
  if w.mode = "w" then w.content
  else String.append (match old with | some s => s | none => "") w.content

/-- Embedding of the `Control_Panel_Settings_View` state used by the
ground-station settings effect: the configured settings file path, the
accumulated key/value settings, and the two caches the method clears
(`Settings.settings_files` and `arguments.groups`). -/
structure Control_Panel_Settings_View where
  settings_file : String
  _new_settings : List (String × PyObj)
  settings_files : List String
  groups : List String

/-- `Control_Panel_Settings_View._set_ground_station_settings`: write the
accumulated settings as pretty-printed key-sorted JSON to the settings file
opened in mode `"w"`, then clear the settings caches (the subsequent
`load_settings` reload is outside the model). -/
def Control_Panel_Settings_View._set_ground_station_settings
    (st : Control_Panel_Settings_View) :
    Control_Panel_Settings_View × SettingsFileWrite :=
  ({ st with settings_files := [], groups := [] },
   { path := st.settings_file, mode := "w",
     content := dumpsPretty (.dict st._new_settings) })

/-! ## Concrete states used to instantiate the theorems -/

/-- The actions emitted by one `activate` call (none when it raises). -/
def activateActions (st : XBee_Sensor_Physical) (now : ℚ) (loc : ℚ × ℚ) : List XBeeAction :=
  match st.activate now loc with
  | .ok r => r.2
  | .error _ => []

/-- A scheduler state for node 1 of a three-node network with one-second slots. -/
def schedEx : XBee_TDMA_Scheduler := ⟨1, 3, 1, 1⟩

/-- A ground-station sensor state (id 0). -/
def sensorGroundEx : XBee_Sensor_Physical :=
  ⟨0, ⟨0, 3, 1, 0⟩, ["g", "a"], none, none, none, 0, [], none⟩

/-- A vehicle sensor state (id 1) that is due to transmit. -/
def sensorVehicleEx : XBee_Sensor_Physical :=
  ⟨1, schedEx, ["g", "a"], none, none, none, 0, [], none⟩

/-- A buffered sweep-data entry. -/
def entryEx : SweepEntry := ⟨(1, 2), (3, 4), none⟩

/-- A vehicle sensor state holding one buffered sweep-data entry. -/
def sensorSendEx : XBee_Sensor_Physical :=
  ⟨1, schedEx, ["g"], some "/dev/ttyUSB0", some (), some "a", 0, [entryEx], none⟩

/-- A measurement packet as buffered for the reconstruction consumer. -/
def packetEx1 : XBee_Packet := ⟨.dict [("specification", .str "rssi_ground_station")]⟩

/-- A second measurement packet. -/
def packetEx2 : XBee_Packet := ⟨.dict [("sensor_id", .int 2)]⟩

/-- A packet whose `specification` value begins with the internal-reserved
underscore prefix. -/
def packetInternalEx : XBee_Packet := ⟨.dict [("specification", .str "_rssi")]⟩

/-- The buffer produced by `Buffer.__init__` with options provided. -/
def bufferEx : Buffer := ⟨0, (0, 0), (0, 0), []⟩

/-- An environment with one registered packet callback. -/
def envEx : Environment := ⟨[("setting_add", ⟨true, 0⟩)]⟩

/-- A packet contents store holding a coordinate tuple. -/
def tupleContentsEx : PyObj := .dict [("from", .tuple [.int 1, .int 2])]

/-- The packet used for the round-trip counterexample. -/
def packetTupleEx : XBee_Packet := ⟨tupleContentsEx⟩

/-! ## Claim theorems -/

/-- C2: for every node and every sequence of `Scheduler.synchronize` calls,
`next_timestamp()` is non-decreasing: each call adopts the later of the
recomputed peer-anchored value and the previously committed value, so a
peer timestamp that would move the schedule backward is ignored. -/
theorem C2_synchronize_monotone (s : XBee_TDMA_Scheduler) (events : List (ℚ × Nat))
    (r : ℚ) (i : Nat) :
    s.next_timestamp ≤ (s.synchronizeAll events).next_timestamp ∧
    s.next_timestamp ≤ (s.synchronize r i).next_timestamp ∧
    (s.recomputed r i < s.next_timestamp →
      (s.synchronize r i).next_timestamp = s.next_timestamp) := by
  refine ⟨?_, le_max_right _ _, fun h => max_eq_right (le_of_lt h)⟩
  induction events generalizing s with
  | nil => exact le_refl _
  | cons e es ih =>
    exact le_trans (le_max_right (s.recomputed e.1 e.2) s.next_send_time)
      (ih (s.synchronize e.1 e.2))

/-- Witness for C2 at node 2 of a three-node network: a synchronize
sequence never lowers `next_timestamp()`, and a peer anchor that recomputes
to 1 is ignored by a node already committed to 2. -/
theorem C2_synchronize_monotone_witness :
    ((⟨2, 3, 1, 2⟩ : XBee_TDMA_Scheduler).next_timestamp ≤
      ((⟨2, 3, 1, 2⟩ : XBee_TDMA_Scheduler).synchronizeAll [(6/5, 1), (0, 1)]).next_timestamp) ∧
    ((⟨2, 3, 1, 2⟩ : XBee_TDMA_Scheduler).synchronize 0 1).next_timestamp =
      (⟨2, 3, 1, 2⟩ : XBee_TDMA_Scheduler).next_timestamp := by
  refine ⟨(C2_synchronize_monotone ⟨2, 3, 1, 2⟩ [(6/5, 1), (0, 1)] 0 1).1,
    (C2_synchronize_monotone ⟨2, 3, 1, 2⟩ [] 0 1).2.2 ?_⟩
  show (0 : ℚ) + ((((2 : ℤ) - 1) % 3 : ℤ) : ℚ) * 1 < 2
  norm_num

/-- C3 counterexample: `Buffer.put` accepts a packet whose `specification`
begins with the internal-reserved underscore prefix — there is no
specification check in `put`, so the claimed rejection does not happen. -/
theorem C3_put_counterexample :
    bufferEx.put (.packet packetInternalEx) =
      .ok ⟨0, (0, 0), (0, 0), [packetInternalEx]⟩ := rfl

/-- C3 (amended): `Buffer.put` fails with a type-mismatch `ValueError` for
every value that is not an `XBee_Packet`, and succeeds and enqueues every
`XBee_Packet`, including those whose `specification` begins with the
internal-reserved prefix. -/
theorem C3_put_type_check (b : Buffer) (arg : BufferInput) :
    (∀ t, arg = .notAPacket t →
      b.put arg = .error (.valueError "The provided packet is not an XBee packet.")) ∧
    (∀ p, arg = .packet p → b.put arg = .ok { b with _queue := b._queue ++ [p] }) := by
  constructor
  · rintro t rfl; rfl
  · rintro p rfl; rfl

/-- Witness for C3 (amended): a non-packet argument is rejected and the
reserved-specification packet is enqueued. -/
theorem C3_put_type_check_witness :
    bufferEx.put (.notAPacket "str") =
      .error (.valueError "The provided packet is not an XBee packet.") ∧
    bufferEx.put (.packet packetInternalEx) =
      .ok { bufferEx with _queue := bufferEx._queue ++ [packetInternalEx] } :=
  ⟨(C3_put_type_check bufferEx (.notAPacket "str")).1 "str" rfl,
   (C3_put_type_check bufferEx (.packet packetInternalEx)).2 packetInternalEx rfl⟩

/-- C6: packet deserialization is atomic — on malformed input `unserialize`
fails as a whole and the packet keeps exactly its previous contents; on
well-formed input the whole contents mapping is replaced in one step. -/
theorem C6_unserialize_atomic (p : XBee_Packet) (b : String) :
    (loads b = none →
      p.unserialize b = (p, some (.valueError "No JSON object could be decoded"))) ∧
    (∀ c, loads b = some c → p.unserialize b = (⟨c⟩, none)) := by
  constructor
  · intro h; simp [XBee_Packet.unserialize, h]
  · intro c h; simp [XBee_Packet.unserialize, h]

/-- Witness for C6: a packet with contents keeps them on the malformed
input consisting of a lone opening brace, and is wholesale-replaced by the
well-formed input consisting of an empty object. -/
theorem C6_unserialize_atomic_witness :
    (⟨.dict [("a", .int 1)]⟩ : XBee_Packet).unserialize (String.mk ['\x7b']) =
      (⟨.dict [("a", .int 1)]⟩, some (.valueError "No JSON object could be decoded")) ∧
    (⟨.dict [("a", .int 1)]⟩ : XBee_Packet).unserialize (String.mk ['\x7b', '\x7d']) =
      (⟨.dict []⟩, none) :=
  ⟨(C6_unserialize_atomic ⟨.dict [("a", .int 1)]⟩ (String.mk ['\x7b'])).1 rfl,
   (C6_unserialize_atomic ⟨.dict [("a", .int 1)]⟩ (String.mk ['\x7b', '\x7d'])).2 (.dict []) rfl⟩

/-- C7: `add_packet_action` fails with a duplicate-registration `KeyError`
when the specification already has a registered callback, and registers a
callable handler for a fresh specification. -/
theorem C7_add_packet_action (env : Environment) (action : String) (cb : PyCallback) :
    (cb.callable = true → (env._packet_callbacks.lookup action).isSome = true →
      env.add_packet_action action cb = .error (.keyError action)) ∧
    (cb.callable = true → env._packet_callbacks.lookup action = none →
      env.add_packet_action action cb =
        .ok { env with _packet_callbacks := env._packet_callbacks ++ [(action, cb)] }) := by
  constructor
  · intro hc hd
    simp [Environment.add_packet_action, hc, hd]
  · intro hc hf
    simp [Environment.add_packet_action, hc, hf]

/-- Witness for C7: re-registering `setting_add` fails with the duplicate
error and registering the fresh `setting_done` succeeds. -/
theorem C7_add_packet_action_witness :
    envEx.add_packet_action "setting_add" ⟨true, 1⟩ = .error (.keyError "setting_add") ∧
    envEx.add_packet_action "setting_done" ⟨true, 1⟩ =
      .ok { envEx with _packet_callbacks :=
            envEx._packet_callbacks ++ [("setting_done", ⟨true, 1⟩)] } :=
  ⟨(C7_add_packet_action envEx "setting_add" ⟨true, 1⟩).1 rfl rfl,
   (C7_add_packet_action envEx "setting_done" ⟨true, 1⟩).2 rfl rfl⟩

/-- C5: `_send` leaves the accumulated sweep-data list `self._data`
unchanged — the clearing step assigns a fresh list to the attribute
`self.data` instead — so every buffered entry is transmitted again on each
send round (each entry of `_data` appears among the emitted frames). -/
theorem C5_send_preserves_data (st : XBee_Sensor_Physical) (now : ℚ) (loc : ℚ × ℚ)
    (st2 : XBee_Sensor_Physical) (acts : List XBeeAction)
    (h : st._send now loc = .ok (st2, acts)) :
    st2._data = st._data ∧ st2.data = some [] ∧
    ∀ g gs, st.settings_sensors = g :: gs →
      ∀ e ∈ st._data, XBeeAction.txSweep g e ∈ acts := by
  rw [XBee_Sensor_Physical._send] at h
  cases hs : st.settings_sensors with
  | nil => rw [hs] at h; exact absurd h (by simp)
  | cons g gs =>
    rw [hs] at h
    simp only [Except.ok.injEq, Prod.mk.injEq] at h
    obtain ⟨h1, h2⟩ := h
    subst h1 h2
    refine ⟨rfl, rfl, ?_⟩
    intro g2 gs2 hgg e he
    injection hgg with hgg1 _
    subst hgg1
    exact List.mem_append_right _ (List.mem_map_of_mem _ he)

/-- Witness for C5: a send round with one buffered entry keeps `_data`
intact, creates `data = []`, and retransmits the entry. -/
theorem C5_send_preserves_data_witness :
    ({ sensorSendEx with data := some [] } : XBee_Sensor_Physical)._data = sensorSendEx._data ∧
    ({ sensorSendEx with data := some [] } : XBee_Sensor_Physical).data = some [] ∧
    XBeeAction.txSweep "g" entryEx ∈ [XBeeAction.txSweep "g" entryEx] :=
  have h := C5_send_preserves_data sensorSendEx 1 (0, 0)
    { sensorSendEx with data := some [] } [XBeeAction.txSweep "g" entryEx] rfl
  ⟨h.1, h.2.1, h.2.2 "g" [] rfl entryEx (by simp [sensorSendEx])⟩

/-- C4: the ground-station node (id 0) never transmits on its own schedule
— every action `activate` emits for node 0 is a local `at` query, never a
`tx` frame; more generally no `tx` frame is emitted unless the node id is
positive and the scheduled timestamp has been reached. -/
theorem C4_ground_station_never_transmits (st : XBee_Sensor_Physical) (now : ℚ)
    (loc : ℚ × ℚ) :
    (st.id = 0 → (activateActions st now loc).all (fun a => !a.isTx) = true) ∧
    (¬ (0 < st.id ∧ st._next_timestamp ≤ now) →
      (activateActions st now loc).all (fun a => !a.isTx) = true) := by
  have key : ¬ (0 < st.id ∧ st._next_timestamp ≤ now) →
      (activateActions st now loc).all (fun a => !a.isTx) = true := by
    intro hnot
    by_cases hc : st._serial_connection = none ∧ st._sensor = none
    · simp [activateActions, XBee_Sensor_Physical.activate, hc, hnot, XBeeAction.isTx]
    · simp [activateActions, XBee_Sensor_Physical.activate, hc, hnot, XBeeAction.isTx]
  refine ⟨fun h0 => key (by simp [h0]), key⟩

/-- Witness for C4 at the concrete ground-station state: activation emits
no transmission. -/
theorem C4_ground_station_never_transmits_witness :
    (activateActions sensorGroundEx 5 (1, 2)).all (fun a => !a.isTx) = true ∧
    (activateActions sensorGroundEx 7 (1, 2)).all (fun a => !a.isTx) = true :=
  ⟨(C4_ground_station_never_transmits sensorGroundEx 5 (1, 2)).1 rfl,
   (C4_ground_station_never_transmits sensorGroundEx 7 (1, 2)).2 (by decide)⟩

/-- C10: after both firmware status responses have been received the
resolved node address is the address-high half followed by the address-low
half, whether `SH` arrives before `SL` or after it. -/
theorem C10_address_resolution (st : XBee_Sensor_Physical) (h l : String) (loc : ℚ × ℚ)
    (hid : 0 < st.id) (haddr : st._address = none) :
    (st._receive (.at_response "SH" h) loc = .ok ({ st with _address := some h }, []) ∧
     ({ st with _address := some h } : XBee_Sensor_Physical)._receive
        (.at_response "SL" l) loc = .ok ({ st with _address := some (String.append h l) }, [])) ∧
    (st._receive (.at_response "SL" l) loc = .ok ({ st with _address := some l }, []) ∧
     ({ st with _address := some l } : XBee_Sensor_Physical)._receive
        (.at_response "SH" h) loc = .ok ({ st with _address := some (String.append h l) }, [])) := by
  simp [XBee_Sensor_Physical._receive, hid, haddr]

/-- Witness for C10: both arrival orders resolve the address "AB". -/
theorem C10_address_resolution_witness :
    (sensorVehicleEx._receive (.at_response "SH" "A") (0, 0) =
       .ok ({ sensorVehicleEx with _address := some "A" }, []) ∧
     ({ sensorVehicleEx with _address := some "A" } : XBee_Sensor_Physical)._receive
        (.at_response "SL" "B") (0, 0) =
       .ok ({ sensorVehicleEx with _address := some (String.append "A" "B") }, [])) ∧
    (sensorVehicleEx._receive (.at_response "SL" "B") (0, 0) =
       .ok ({ sensorVehicleEx with _address := some "B" }, []) ∧
     ({ sensorVehicleEx with _address := some "B" } : XBee_Sensor_Physical)._receive
        (.at_response "SH" "A") (0, 0) =
       .ok ({ sensorVehicleEx with _address := some (String.append "A" "B") }, [])) :=
  C10_address_resolution sensorVehicleEx "A" "B" (0, 0) (by decide) rfl

/-- A sequence of `put` calls with packet arguments appends the packets to
the queue in order and never fails. -/
theorem Buffer.putAll_ok (ps : List XBee_Packet) (b : Buffer) :
    b.putAll ps = .ok { b with _queue := b._queue ++ ps } := by
  induction ps generalizing b with
  | nil => simp [Buffer.putAll]
  | cons p rest ih =>
    simp [Buffer.putAll, Buffer.put, ih, List.append_assoc]

/-- A sequence of `m` `get` calls on a queue of at least `m` packets
returns the first `m` packets in order and drops them from the queue. -/
theorem Buffer.getMany_spec (m : Nat) (b : Buffer) (h : m ≤ b._queue.length) :
    (b.getMany m).1 = (b._queue.take m).map some ∧
    (b.getMany m).2._queue = b._queue.drop m := by
  induction m generalizing b with
  | zero => simp [Buffer.getMany]
  | succ m ih =>
    cases hq : b._queue with
    | nil => rw [hq] at h; simp at h
    | cons p rest =>
      have hrest := ih { b with _queue := rest }
        (by rw [hq] at h; simpa using Nat.le_of_succ_le_succ h)
      simp [Buffer.getMany, Buffer.get, hq, hrest.1, hrest.2]

/-- C8: the Buffer is FIFO with exact count arithmetic — starting from a
freshly constructed buffer, `N` puts followed by `M ≤ N` gets return the
first `M` packets in arrival order, leave `count() = N - M`, and a `get`
on the emptied queue returns the explicit empty indicator `None`. -/
theorem C8_buffer_fifo (b0 : Buffer) (ps : List XBee_Packet) (m : Nat)
    (hinit : Buffer.init (some ()) = .ok b0) (hm : m ≤ ps.length) :
    ∃ bN, b0.putAll ps = .ok bN ∧
      (bN.getMany m).1 = (ps.take m).map some ∧
      (bN.getMany m).2.count = ps.length - m ∧
      (bN.getMany ps.length).2.get = (none, (bN.getMany ps.length).2) := by
  have hb : (⟨0, (0, 0), (0, 0), []⟩ : Buffer) = b0 := by
    simpa [Buffer.init] using hinit
  subst hb
  refine ⟨⟨0, (0, 0), (0, 0), ps⟩, by simpa using Buffer.putAll_ok ps _, ?_, ?_, ?_⟩
  · exact (Buffer.getMany_spec m _ hm).1
  · have hq := (Buffer.getMany_spec m ⟨0, (0, 0), (0, 0), ps⟩ hm).2
    simp only [Buffer.count]
    rw [hq]
    simp
  · have hdrop := (Buffer.getMany_spec ps.length ⟨0, (0, 0), (0, 0), ps⟩ (le_refl _)).2
    have hempty : ((⟨0, (0, 0), (0, 0), ps⟩ : Buffer).getMany ps.length).2._queue = [] := by
      simpa using hdrop
    rw [Buffer.get, hempty]

/-- Witness for C8: two packets in, one get returns the first packet, the
count drops to one, and after both gets the queue reports empty. -/
theorem C8_buffer_fifo_witness :
    ∃ bN, bufferEx.putAll [packetEx1, packetEx2] = .ok bN ∧
      (bN.getMany 1).1 = ([packetEx1, packetEx2].take 1).map some ∧
      (bN.getMany 1).2.count = [packetEx1, packetEx2].length - 1 ∧
      (bN.getMany [packetEx1, packetEx2].length).2.get =
        (none, (bN.getMany [packetEx1, packetEx2].length).2) :=
  C8_buffer_fifo bufferEx [packetEx1, packetEx2] 1 rfl (by simp)

/-- The recursive key-sorting pass preserves the member keys of one
dictionary level. -/
theorem sortAllPairs_map_fst (kvs : List (String × PyObj)) :
    (sortAllPairs kvs).map Prod.fst = kvs.map Prod.fst := by
  induction kvs with
  | nil => rfl
  | cons kv rest ih => simp [sortAllPairs, ih]

/-- C9: the ground-station effect performs a single whole-file write in
mode `"w"` to the configured settings path — wholesale-replacing whatever
the file held before — and the written text is the pretty-printed rendering
of the accumulated settings with keys sorted (the rendered key sequence is
sorted and is a permutation of the accumulated keys). -/
theorem C9_ground_settings_write (st : Control_Panel_Settings_View) (old : Option String) :
    (st._set_ground_station_settings).2.path = st.settings_file ∧
    (st._set_ground_station_settings).2.mode = "w" ∧
    (st._set_ground_station_settings).2.content = dumpsPretty (.dict st._new_settings) ∧
    applyFileWrite old (st._set_ground_station_settings).2 =
      dumpsPretty (.dict st._new_settings) ∧
    List.Sorted (· ≤ ·) ((sortPairs (sortAllPairs st._new_settings)).map Prod.fst) ∧
    List.Perm ((sortPairs (sortAllPairs st._new_settings)).map Prod.fst)
      (st._new_settings.map Prod.fst) := by
  refine ⟨rfl, rfl, rfl, rfl, ?_, ?_⟩
  · have hp := @List.sorted_mergeSort (String × PyObj)
      (fun a b => decide (a.1 ≤ b.1))
      (fun a b c hab hbc => by
        simp only [decide_eq_true_eq] at hab hbc ⊢
        exact le_trans hab hbc)
      (fun a b => by
        rcases le_total a.1 b.1 with hle | hle <;> simp [hle])
      (sortAllPairs st._new_settings)
    exact List.Pairwise.map Prod.fst
      (fun a b hab => by simpa using hab) hp
  · have hperm := List.mergeSort_perm (sortAllPairs st._new_settings)
      (fun a b => decide (a.1 ≤ b.1))
    have := hperm.map Prod.fst
    rw [sortAllPairs_map_fst] at this
    exact this

/-! ## Round-trip of the wire encoding

The following lemmas establish that parsing the `dumps` rendering of any
value yields its `norm` image (tuples collapsed to lists), which settles
the round-trip claims about `serialize`/`deserialize`. -/

/-- Matching a literal against itself followed by a remainder succeeds. -/
theorem expectLit_append (l r : List Char) : expectLit l (l ++ r) = some r := by
  induction l with
  | nil => rfl
  | cons c cs ih => simp [expectLit, ih]

/-- Skipping whitespace is the identity on input with a non-space head. -/
theorem skipWs_cons_of_not_ws {c : Char} (h : wsChar c = false) (cs : List Char) :
    skipWs (c :: cs) = c :: cs := by
  simp [skipWs, h]

/-- Fuel-indexed digit extraction agrees with `Nat.digits`. -/
theorem natCharsAux_eq_digits :
    ∀ fuel n, n ≤ fuel → natCharsAux fuel n = (Nat.digits 10 n).map Nat.digitChar := by
  intro fuel
  induction fuel with
  | zero =>
    intro n hn
    interval_cases n
    simp [natCharsAux]
  | succ f ih =>
    intro n hn
    cases n with
    | zero => simp [natCharsAux]
    | succ m =>
      rw [Nat.digits_def' (by norm_num : (1 : ℕ) < 10) (Nat.succ_pos m)]
      have hdiv : (m + 1) / 10 ≤ f := by
        have := Nat.div_lt_self (Nat.succ_pos m) (by norm_num : 1 < 10)
        omega
      simp [natCharsAux, ih _ hdiv]

/-- Every character of a decimal rendering is a digit. -/
theorem natChars_isDigit {n : Nat} {c : Char} (h : c ∈ natChars n) : c.isDigit = true := by
  by_cases h0 : n = 0
  · subst h0
    simp [natChars] at h
    subst h
    decide
  · rw [natChars, if_neg h0, natCharsAux_eq_digits n n (le_refl n)] at h
    rw [List.mem_reverse, List.mem_map] at h
    obtain ⟨d, hd, rfl⟩ := h
    have hlt : d < 10 := Nat.digits_lt_base (by norm_num) hd
    interval_cases d <;> decide

/-- The decimal rendering is never empty. -/
theorem natChars_ne_nil (n : Nat) : natChars n ≠ [] := by
  by_cases h0 : n = 0
  · subst h0; simp [natChars]
  · rw [natChars, if_neg h0, natCharsAux_eq_digits n n (le_refl n)]
    simp [Nat.digits_ne_nil_iff_ne_zero.mpr h0]

/-- Reading back the digit character of a digit value. -/
theorem charDigit_digitChar {d : Nat} (h : d < 10) : charDigit (Nat.digitChar d) = d := by
  interval_cases d <;> decide

/-- `takeWhile` and `dropWhile` split an append whose left part satisfies
the predicate and whose right part starts with a failing character. -/
theorem takeWhile_dropWhile_append {p : Char → Bool} :
    ∀ (l r : List Char), (∀ a ∈ l, p a = true) →
      (∀ c, r.head? = some c → p c = false) →
      (l ++ r).takeWhile p = l ∧ (l ++ r).dropWhile p = r := by
  intro l r hl hr
  induction l with
  | nil =>
    cases r with
    | nil => simp
    | cons c cs =>
      have := hr c rfl
      simp [List.takeWhile_cons, List.dropWhile_cons, this]
  | cons a l ih =>
    have ha : p a = true := hl a (by simp)
    have hrest := ih (fun b hb => hl b (by simp [hb]))
    simp [List.takeWhile_cons, List.dropWhile_cons, ha, hrest.1, hrest.2]

/-- Parsing the decimal rendering of a natural number recovers it. -/
theorem parseNat_natChars (n : Nat) (rest : List Char)
    (hrest : ∀ c, rest.head? = some c → c.isDigit = false) :
    parseNat (natChars n ++ rest) = some (n, rest) := by
  obtain ⟨htake, hdrop⟩ :=
    takeWhile_dropWhile_append (natChars n) rest (fun a ha => natChars_isDigit ha) hrest
  have hval : Nat.ofDigits 10 (((natChars n).map charDigit).reverse) = n := by
    by_cases h0 : n = 0
    · subst h0; decide
    · rw [natChars, if_neg h0, natCharsAux_eq_digits n n (le_refl n)]
      rw [List.map_reverse, List.reverse_reverse, List.map_map]
      have hcongr : ∀ d ∈ Nat.digits 10 n, (charDigit ∘ Nat.digitChar) d = id d :=
        fun d hd => charDigit_digitChar (Nat.digits_lt_base (by norm_num) hd)
      rw [List.map_congr_left hcongr, List.map_id, Nat.ofDigits_digits]
  simp only [parseNat, htake, hdrop, hval]
  rw [if_neg (natChars_ne_nil n)]

/-- Parsing an escaped string body up to the closing quote recovers the
original characters. -/
theorem parseStringBody_escL :
    ∀ (s rest : List Char), parseStringBody (escL s ++ '"' :: rest) = some (s, rest) := by
  intro s
  induction s with
  | nil =>
    intro rest
    simp only [escL, List.nil_append]
    rw [parseStringBody.eq_def]
    rfl
  | cons c cs ih =>
    intro rest
    by_cases hq : c = '"'
    · subst hq
      rw [show escL ('"' :: cs) ++ '"' :: rest = '\\' :: '"' :: (escL cs ++ '"' :: rest) from by
        simp [escL, escChar]]
      rw [parseStringBody.eq_def]
      simp [ih rest]
    · by_cases hb : c = '\\'
      · subst hb
        rw [show escL ('\\' :: cs) ++ '"' :: rest = '\\' :: '\\' :: (escL cs ++ '"' :: rest) from by
          simp [escL, escChar]]
        rw [parseStringBody.eq_def]
        simp [ih rest]
      · rw [show escL (c :: cs) ++ '"' :: rest = c :: (escL cs ++ '"' :: rest) from by
          simp [escL, escChar, hq, hb]]
        rw [parseStringBody.eq_def]
        simp [hq, hb, ih rest]

/-- A digit head rules out every other token head the value parser
dispatches on, and is not whitespace. -/
theorem isDigit_facts {c : Char} (h : c.isDigit = true) :
    c ≠ 'n' ∧ c ≠ 't' ∧ c ≠ 'f' ∧ c ≠ '"' ∧ c ≠ '[' ∧ c ≠ '{' ∧ c ≠ '-' ∧
    c ≠ ']' ∧ c ≠ '}' ∧ c ≠ ',' ∧ c ≠ ':' ∧ wsChar c = false := by
  refine ⟨?_, ?_, ?_, ?_, ?_, ?_, ?_, ?_, ?_, ?_, ?_, ?_⟩
  all_goals first
    | (rintro rfl; revert h; decide)
    | (rw [wsChar]
       simp only [Bool.or_eq_false_iff, beq_eq_false_iff_ne, ne_eq]
       refine ⟨⟨⟨?_, ?_⟩, ?_⟩, ?_⟩ <;> (rintro rfl; revert h; decide))

/-- The rendering of a value is nonempty, starts with a character that is
not whitespace, and never starts with a closing bracket. -/
theorem dumpsL_head (v : PyObj) :
    ∃ c cs, dumpsL v = c :: cs ∧ wsChar c = false ∧ c ≠ ']' := by
  cases v with
  | null => exact ⟨'n', _, rfl, by decide, by decide⟩
  | bool b => cases b with
    | true => exact ⟨'t', _, rfl, by decide, by decide⟩
    | false => exact ⟨'f', _, rfl, by decide, by decide⟩
  | int n =>
    cases n with
    | ofNat m =>
      obtain ⟨c, cs, hc⟩ := List.exists_cons_of_ne_nil (natChars_ne_nil m)
      have hd : c.isDigit = true := natChars_isDigit (by rw [hc]; simp)
      have hf := isDigit_facts hd
      exact ⟨c, cs, hc, hf.2.2.2.2.2.2.2.2.2.2.2, hf.2.2.2.2.2.2.2.1⟩
    | negSucc m => exact ⟨'-', _, rfl, by decide, by decide⟩
  | str s => exact ⟨'"', _, rfl, by decide, by decide⟩
  | tuple items => exact ⟨'[', _, rfl, by decide, by decide⟩
  | list items => exact ⟨'[', _, rfl, by decide, by decide⟩
  | dict kvs => exact ⟨'{', _, rfl, by decide, by decide⟩

/-- The rendering of a value is nonempty. -/
theorem dumpsL_ne_nil (v : PyObj) : dumpsL v ≠ [] := by
  obtain ⟨c, cs, hc, -, -⟩ := dumpsL_head v
  simp [hc]

/-- The value parser ignores a leading whitespace character. -/
theorem parseVal_cons_ws {c : Char} (h : wsChar c = true) (fuel : Nat) (cs : List Char) :
    parseVal fuel (c :: cs) = parseVal fuel cs := by
  cases fuel with
  | zero => rfl
  | succ f =>
    rw [parseVal.eq_def]
    conv_rhs => rw [parseVal.eq_def]
    simp only [show skipWs (c :: cs) = skipWs cs from by simp [skipWs, h]]

/-- The member parser ignores a leading whitespace character. -/
theorem parseMember_cons_ws {c : Char} (h : wsChar c = true) (fuel : Nat) (cs : List Char) :
    parseMember fuel (c :: cs) = parseMember fuel cs := by
  cases fuel with
  | zero => rfl
  | succ f =>
    rw [parseMember.eq_def]
    conv_rhs => rw [parseMember.eq_def]
    simp only [show skipWs (c :: cs) = skipWs cs from by simp [skipWs, h]]

/-- After one array element the rendering continues with a comma or a
closing bracket, never a digit. -/
theorem dumpsRest_head_not_digit (vs : List PyObj) (rest : List Char) (c : Char)
    (h : (dumpsRest vs ++ rest).head? = some c) : c.isDigit = false := by
  cases vs with
  | nil => simp [dumpsRest] at h; subst h; decide
  | cons v vs => simp [dumpsRest] at h; subst h; decide

/-- After one object member the rendering continues with a comma or a
closing brace, never a digit. -/
theorem dumpsRestPairs_head_not_digit (kvs : List (String × PyObj)) (rest : List Char)
    (c : Char) (h : (dumpsRestPairs kvs ++ rest).head? = some c) : c.isDigit = false := by
  cases kvs with
  | nil => simp [dumpsRestPairs] at h; subst h; decide
  | cons kv kvs => simp [dumpsRestPairs] at h; subst h; decide

/-- Parsing the rendering of a value (with any remainder that does not
start with a digit) returns its round-trip image, for every component of
the mutual grammar, given fuel exceeding the input length. -/
theorem parse_dumps_aux : ∀ fuel : Nat,
    (∀ v rest, (dumpsL v ++ rest).length < fuel →
       (∀ c, rest.head? = some c → c.isDigit = false) →
       parseVal fuel (dumpsL v ++ rest) = some (norm v, rest)) ∧
    (∀ vs rest, (dumpsRest vs ++ rest).length < fuel →
       parseItems fuel (dumpsRest vs ++ rest) = some (normItems vs, rest)) ∧
    (∀ kv rest, (dumpsPair kv ++ rest).length < fuel →
       (∀ c, rest.head? = some c → c.isDigit = false) →
       parseMember fuel (dumpsPair kv ++ rest) = some ((kv.1, norm kv.2), rest)) ∧
    (∀ kvs rest, (dumpsRestPairs kvs ++ rest).length < fuel →
       parseMembersTail fuel (dumpsRestPairs kvs ++ rest) = some (normPairs kvs, rest)) := by
  intro fuel
  induction fuel with
  | zero =>
    refine ⟨?_, ?_, ?_, ?_⟩ <;>
      (intro x y hlen; exact absurd hlen (Nat.not_lt_zero _))
  | succ f ih =>
    obtain ⟨ihA, ihB, ihC, ihD⟩ := ih
    have hmember : ∀ (k : String) (v : PyObj) (rest : List Char),
        (dumpsPair (k, v) ++ rest).length < f + 1 →
        (∀ c, rest.head? = some c → c.isDigit = false) →
        parseMember (f + 1) (dumpsPair (k, v) ++ rest) = some ((k, norm v), rest) := by
      intro k v rest hlen hrest
      have hinput : dumpsPair (k, v) ++ rest =
          '"' :: (escL k.data ++ '"' :: (':' :: ' ' :: (dumpsL v ++ rest))) := by
        simp [dumpsPair]
      have hlv : (dumpsL v ++ rest).length < f := by
        rw [hinput] at hlen
        simp only [List.length_cons, List.length_append] at hlen ⊢
        omega
      rw [hinput, parseMember.eq_def]
      simp only [skipWs_cons_of_not_ws (by decide : wsChar '"' = false)]
      simp only [parseStringBody_escL k.data (':' :: ' ' :: (dumpsL v ++ rest))]
      simp only [skipWs_cons_of_not_ws (by decide : wsChar ':' = false)]
      simp only [parseVal_cons_ws (by decide : wsChar ' ' = true)]
      simp only [ihA v rest hlv hrest]
      rfl
    have harr : ∀ (items : List PyObj) (rest : List Char),
        (('[' :: dumpsFirst items) ++ rest).length < f + 1 →
        parseVal (f + 1) (('[' :: dumpsFirst items) ++ rest) =
          some (.list (normItems items), rest) := by
      intro items rest hlen
      cases items with
      | nil =>
        show parseVal (f + 1) ('[' :: (']' :: rest)) = some (.list (normItems []), rest)
        rw [parseVal.eq_def]
        simp [skipWs_cons_of_not_ws (by decide : wsChar '[' = false),
          skipWs_cons_of_not_ws (by decide : wsChar ']' = false), normItems]
      | cons v1 vs =>
        have hshape : ('[' :: dumpsFirst (v1 :: vs)) ++ rest =
            '[' :: (dumpsL v1 ++ (dumpsRest vs ++ rest)) := by
          simp [dumpsFirst, List.append_assoc]
        rw [hshape] at hlen ⊢
        obtain ⟨c1, cs1, hc1, hws1, hne1⟩ := dumpsL_head v1
        have hv1 : 0 < (dumpsL v1).length := by rw [hc1]; simp
        have hlen1 : (dumpsL v1 ++ (dumpsRest vs ++ rest)).length < f := by
          simp only [List.length_cons, List.length_append] at hlen ⊢
          omega
        have hlen2 : (dumpsRest vs ++ rest).length < f := by
          simp only [List.length_cons, List.length_append] at hlen hv1 ⊢
          omega
        have hsub := ihA v1 (dumpsRest vs ++ rest) hlen1
          (fun c hcc => dumpsRest_head_not_digit vs rest c hcc)
        have hitems := ihB vs rest hlen2
        have hexp : dumpsL v1 ++ (dumpsRest vs ++ rest) =
            c1 :: (cs1 ++ (dumpsRest vs ++ rest)) := by rw [hc1]; simp
        rw [parseVal.eq_def]
        simp only [skipWs_cons_of_not_ws (by decide : wsChar '[' = false)]
        rw [if_neg (by decide : ¬('[' : Char) = 'n'), if_neg (by decide : ¬('[' : Char) = 't'),
          if_neg (by decide : ¬('[' : Char) = 'f'), if_neg (by decide : ¬('[' : Char) = '"')]
        simp only [if_true]
        rw [hexp]
        simp only [skipWs_cons_of_not_ws hws1]
        rw [if_neg hne1, ← hexp]
        simp only [hsub, hitems]
        simp [normItems]
    have hobj : ∀ (kvs : List (String × PyObj)) (rest : List Char),
        (('{' :: dumpsFirstPair kvs) ++ rest).length < f + 1 →
        parseVal (f + 1) (('{' :: dumpsFirstPair kvs) ++ rest) =
          some (.dict (normPairs kvs), rest) := by
      intro kvs rest hlen
      cases kvs with
      | nil =>
        show parseVal (f + 1) ('{' :: ('}' :: rest)) = some (.dict (normPairs []), rest)
        rw [parseVal.eq_def]
        simp [skipWs_cons_of_not_ws (by decide : wsChar '{' = false),
          skipWs_cons_of_not_ws (by decide : wsChar '}' = false), normPairs]
      | cons kv kvs2 =>
        obtain ⟨k, v⟩ := kv
        have hpair : ('"' : Char) :: (escL k.data ++ '"' :: ':' :: ' ' :: dumpsL v) =
            dumpsPair (k, v) := by
          simp [dumpsPair]
        have hshape : ('{' :: dumpsFirstPair ((k, v) :: kvs2)) ++ rest =
            '{' :: ('"' :: ((escL k.data ++ '"' :: ':' :: ' ' :: dumpsL v) ++
              (dumpsRestPairs kvs2 ++ rest))) := by
          simp [dumpsFirstPair, dumpsPair, List.append_assoc]
        have hpairapp : ('"' : Char) :: ((escL k.data ++ '"' :: ':' :: ' ' :: dumpsL v) ++
            (dumpsRestPairs kvs2 ++ rest)) =
            dumpsPair (k, v) ++ (dumpsRestPairs kvs2 ++ rest) := by
          simp [dumpsPair]
        rw [hshape] at hlen ⊢
        have hp : 0 < (dumpsPair (k, v)).length := by simp [dumpsPair]
        have hcp : (dumpsPair (k, v)).length =
            (escL k.data).length + (dumpsL v).length + 4 := by
          simp only [dumpsPair, List.length_cons, List.length_append]
          omega
        have hlen1 : (dumpsPair (k, v) ++ (dumpsRestPairs kvs2 ++ rest)).length < f := by
          have h := hlen
          simp only [List.length_cons, List.length_append] at h ⊢
          omega
        have hlen2 : (dumpsRestPairs kvs2 ++ rest).length < f := by
          have h := hlen
          simp only [List.length_cons, List.length_append] at h ⊢
          omega
        have hsub := ihC (k, v) (dumpsRestPairs kvs2 ++ rest) hlen1
          (fun c hcc => dumpsRestPairs_head_not_digit kvs2 rest c hcc)
        have htail := ihD kvs2 rest hlen2
        rw [parseVal.eq_def]
        simp only [skipWs_cons_of_not_ws (by decide : wsChar '{' = false)]
        rw [if_neg (by decide : ¬('{' : Char) = 'n'), if_neg (by decide : ¬('{' : Char) = 't'),
          if_neg (by decide : ¬('{' : Char) = 'f'), if_neg (by decide : ¬('{' : Char) = '"'),
          if_neg (by decide : ¬('{' : Char) = '[')]
        simp only [if_true]
        simp only [skipWs_cons_of_not_ws (by decide : wsChar '"' = false)]
        rw [if_neg (by decide : ¬('"' : Char) = '}')]
        rw [hpairapp]
        simp only [hsub, htail]
        simp [normPairs]
    refine ⟨?_, ?_, ?_, ?_⟩
    · intro v rest hlen hrest
      cases v with
      | null =>
        show parseVal (f + 1) ('n' :: 'u' :: 'l' :: 'l' :: rest) = some (norm .null, rest)
        rw [parseVal.eq_def]
        simp [skipWs_cons_of_not_ws (by decide : wsChar 'n' = false), expectLit, norm]
      | bool b =>
        cases b with
        | true =>
          show parseVal (f + 1) ('t' :: 'r' :: 'u' :: 'e' :: rest) =
            some (norm (.bool true), rest)
          rw [parseVal.eq_def]
          simp [skipWs_cons_of_not_ws (by decide : wsChar 't' = false), expectLit, norm]
        | false =>
          show parseVal (f + 1) ('f' :: 'a' :: 'l' :: 's' :: 'e' :: rest) =
            some (norm (.bool false), rest)
          rw [parseVal.eq_def]
          simp [skipWs_cons_of_not_ws (by decide : wsChar 'f' = false), expectLit, norm]
      | int n =>
        cases n with
        | ofNat m =>
          obtain ⟨c, cs, hc⟩ := List.exists_cons_of_ne_nil (natChars_ne_nil m)
          have hcd : c.isDigit = true :=
            natChars_isDigit (by rw [hc]; exact List.mem_cons_self c cs)
          obtain ⟨hn, ht, hf2, hq, hlb, hlc, hm, -, -, -, -, hws⟩ := isDigit_facts hcd
          have hinput : dumpsL (.int (Int.ofNat m)) ++ rest = c :: (cs ++ rest) := by
            simp [dumpsL, intChars, hc]
          rw [hinput, parseVal.eq_def]
          simp only [skipWs_cons_of_not_ws hws]
          rw [if_neg hn, if_neg ht, if_neg hf2, if_neg hq, if_neg hlb, if_neg hlc,
            if_neg hm, if_pos hcd]
          rw [show c :: (cs ++ rest) = natChars m ++ rest from by rw [hc]; simp]
          simp only [parseNat_natChars m rest hrest]
          simp [norm]
        | negSucc m =>
          have hinput : dumpsL (.int (Int.negSucc m)) ++ rest =
              '-' :: (natChars (m + 1) ++ rest) := by
            simp [dumpsL, intChars]
          rw [hinput, parseVal.eq_def]
          simp only [skipWs_cons_of_not_ws (by decide : wsChar '-' = false)]
          rw [if_neg (by decide : ¬('-' : Char) = 'n'),
            if_neg (by decide : ¬('-' : Char) = 't'),
            if_neg (by decide : ¬('-' : Char) = 'f'),
            if_neg (by decide : ¬('-' : Char) = '"'),
            if_neg (by decide : ¬('-' : Char) = '['),
            if_neg (by decide : ¬('-' : Char) = '{')]
          simp only [if_true]
          simp only [parseNat_natChars (m + 1) rest hrest]
          simp [norm, Int.negSucc_eq]
      | str s =>
        have hinput : dumpsL (.str s) ++ rest = '"' :: (escL s.data ++ '"' :: rest) := by
          simp [dumpsL]
        rw [hinput, parseVal.eq_def]
        simp only [skipWs_cons_of_not_ws (by decide : wsChar '"' = false)]
        rw [if_neg (by decide : ¬('"' : Char) = 'n'),
          if_neg (by decide : ¬('"' : Char) = 't'),
          if_neg (by decide : ¬('"' : Char) = 'f')]
        simp only [if_true]
        simp only [parseStringBody_escL s.data rest]
        simp only [norm]
      | tuple items =>
        have h1 : dumpsL (.tuple items) ++ rest = ('[' :: dumpsFirst items) ++ rest := by
          simp [dumpsL]
        rw [h1, show norm (.tuple items) = .list (normItems items) from by simp [norm]]
        exact harr items rest (h1 ▸ hlen)
      | list items =>
        have h1 : dumpsL (.list items) ++ rest = ('[' :: dumpsFirst items) ++ rest := by
          simp [dumpsL]
        rw [h1, show norm (.list items) = .list (normItems items) from by simp [norm]]
        exact harr items rest (h1 ▸ hlen)
      | dict kvs =>
        have h1 : dumpsL (.dict kvs) ++ rest = ('{' :: dumpsFirstPair kvs) ++ rest := by
          simp [dumpsL]
        rw [h1, show norm (.dict kvs) = .dict (normPairs kvs) from by simp [norm]]
        exact hobj kvs rest (h1 ▸ hlen)
    · intro vs rest hlen
      cases vs with
      | nil =>
        show parseItems (f + 1) (']' :: rest) = some (normItems [], rest)
        rw [parseItems.eq_def]
        simp [skipWs_cons_of_not_ws (by decide : wsChar ']' = false), normItems]
      | cons v vs2 =>
        have hshape : dumpsRest (v :: vs2) ++ rest =
            ',' :: ' ' :: (dumpsL v ++ (dumpsRest vs2 ++ rest)) := by
          simp [dumpsRest, List.append_assoc]
        rw [hshape] at hlen ⊢
        obtain ⟨c1, cs1, hc1, -, -⟩ := dumpsL_head v
        have hv1 : 0 < (dumpsL v).length := by rw [hc1]; simp
        have hlenv : (dumpsL v ++ (dumpsRest vs2 ++ rest)).length < f := by
          simp only [List.length_cons, List.length_append] at hlen ⊢
          omega
        have hlent : (dumpsRest vs2 ++ rest).length < f := by
          simp only [List.length_cons, List.length_append] at hlen hv1 ⊢
          omega
        rw [parseItems.eq_def]
        simp only [skipWs_cons_of_not_ws (by decide : wsChar ',' = false)]
        rw [if_neg (by decide : ¬(',' : Char) = ']')]
        simp only [if_true]
        simp only [parseVal_cons_ws (by decide : wsChar ' ' = true)]
        simp only [ihA v _ hlenv (fun c hcc => dumpsRest_head_not_digit vs2 rest c hcc)]
        simp only [ihB vs2 rest hlent]
        simp [normItems]
    · intro kv rest hlen hrest
      obtain ⟨k, v⟩ := kv
      exact hmember k v rest hlen hrest
    · intro kvs rest hlen
      cases kvs with
      | nil =>
        show parseMembersTail (f + 1) ('}' :: rest) = some (normPairs [], rest)
        rw [parseMembersTail.eq_def]
        simp [skipWs_cons_of_not_ws (by decide : wsChar '}' = false), normPairs]
      | cons kv kvs2 =>
        obtain ⟨k, v⟩ := kv
        have hshape : dumpsRestPairs ((k, v) :: kvs2) ++ rest =
            ',' :: ' ' :: (dumpsPair (k, v) ++ (dumpsRestPairs kvs2 ++ rest)) := by
          simp [dumpsRestPairs, List.append_assoc]
        rw [hshape] at hlen ⊢
        have hp : 0 < (dumpsPair (k, v)).length := by simp [dumpsPair]
        have hlenp : (dumpsPair (k, v) ++ (dumpsRestPairs kvs2 ++ rest)).length < f := by
          simp only [List.length_cons, List.length_append] at hlen ⊢
          omega
        have hlent : (dumpsRestPairs kvs2 ++ rest).length < f := by
          simp only [List.length_cons, List.length_append] at hlen hp ⊢
          omega
        rw [parseMembersTail.eq_def]
        simp only [skipWs_cons_of_not_ws (by decide : wsChar ',' = false)]
        rw [if_neg (by decide : ¬(',' : Char) = '}')]
        simp only [if_true]
        simp only [parseMember_cons_ws (by decide : wsChar ' ' = true)]
        simp only [ihC (k, v) _ hlenp
          (fun c hcc => dumpsRestPairs_head_not_digit kvs2 rest c hcc)]
        simp only [ihD kvs2 rest hlent]
        simp [normPairs]

/-- Parsing the rendering of any value yields its round-trip image: tuples
come back as lists, everything else is restored exactly. -/
theorem loads_dumps (v : PyObj) : loads (dumps v) = some (norm v) := by
  have haux := (parse_dumps_aux ((dumpsL v).length + 1)).1 v []
    (by simp) (by intro c hc; simp at hc)
  rw [List.append_nil] at haux
  show (match parseVal ((dumpsL v).length + 1) (dumpsL v) with
    | some (v, rest) => if skipWs rest = [] then some v else none
    | none => none) = some (norm v)
  rw [haux]
  simp [skipWs]

mutual

/-- A tuple-free value is a fixed point of the round trip. -/
theorem norm_eq_of_tupleFree : ∀ v : PyObj, tupleFree v = true → norm v = v
  | .null, _ => rfl
  | .bool _, _ => rfl
  | .int _, _ => rfl
  | .str _, _ => rfl
  | .tuple _, h => by simp [tupleFree] at h
  | .list items, h => by
    rw [norm, normItems_eq_of_tupleFree items (by simpa [tupleFree] using h)]
  | .dict kvs, h => by
    rw [norm, normPairs_eq_of_tupleFree kvs (by simpa [tupleFree] using h)]

/-- Elements without tuples are fixed by the round trip. -/
theorem normItems_eq_of_tupleFree : ∀ vs : List PyObj, tupleFreeItems vs = true →
    normItems vs = vs
  | [], _ => rfl
  | v :: vs, h => by
    rw [tupleFreeItems, Bool.and_eq_true] at h
    rw [normItems, norm_eq_of_tupleFree v h.1, normItems_eq_of_tupleFree vs h.2]

/-- Members without tuples are fixed by the round trip. -/
theorem normPairs_eq_of_tupleFree : ∀ kvs : List (String × PyObj),
    tupleFreePairs kvs = true → normPairs kvs = kvs
  | [], _ => rfl
  | kv :: kvs, h => by
    rw [tupleFreePairs, Bool.and_eq_true] at h
    rw [normPairs, norm_eq_of_tupleFree kv.2 h.1, normPairs_eq_of_tupleFree kvs h.2]

end

/-- C1 counterexample: a packet holding a coordinate tuple does not survive
the round trip — the tuple comes back as a list, so `get_all` differs. -/
theorem C1_roundtrip_counterexample :
    (deserialize packetTupleEx.serialize).1.get_all ≠ packetTupleEx.get_all := by
  have h : (deserialize packetTupleEx.serialize).1.get_all =
      PyObj.dict [("from", PyObj.list [PyObj.int 1, PyObj.int 2])] := rfl
  rw [h]
  simp [packetTupleEx, tupleContentsEx, XBee_Packet.get_all]

/-- C1 (amended): deserializing the bytes produced by serializing a packet
restores its contents with every tuple-valued entry returned as a list;
in particular `deserialize(serialize(P)).get_all() == P.get_all()` holds
exactly for packets whose values contain no tuples. -/
theorem C1_serialize_roundtrip (p : XBee_Packet) :
    (deserialize p.serialize).1.get_all = norm p.get_all ∧
    (deserialize p.serialize).2 = none ∧
    (tupleFree p.get_all = true →
      (deserialize p.serialize).1.get_all = p.get_all) := by
  have h := loads_dumps p._contents
  refine ⟨?_, ?_, ?_⟩
  · simp [deserialize, XBee_Packet.serialize, XBee_Packet.unserialize, XBee_Packet.get_all, h]
  · simp [deserialize, XBee_Packet.serialize, XBee_Packet.unserialize, h]
  · intro ht
    simp [deserialize, XBee_Packet.serialize, XBee_Packet.unserialize, XBee_Packet.get_all, h]
    exact norm_eq_of_tupleFree p._contents ht

/-- Witness for C1 (amended) at a tuple-free packet: the round trip is the
identity on its contents. -/
theorem C1_serialize_roundtrip_witness :
    (deserialize packetEx1.serialize).1.get_all = norm packetEx1.get_all ∧
    (deserialize packetEx1.serialize).2 = none ∧
    (deserialize packetEx1.serialize).1.get_all = packetEx1.get_all :=
  ⟨(C1_serialize_roundtrip packetEx1).1, (C1_serialize_roundtrip packetEx1).2.1,
   (C1_serialize_roundtrip packetEx1).2.2 rfl⟩

end UVT
